import Mathlib

/-!
Verification development for the ADC-platform Python IPC bridge
(`src/interfaces/interop/py/ipc_client.py` and
`src/interfaces/interop/py/base_module.py`).

The Python code is shallowly embedded:

* `PVal` models the Python values that flow through the bridge: the JSON
  value universe (`json.loads` output) extended with `bytes` (produced by
  tagged-buffer decoding, consumed by tagged-buffer encoding).
* `IPCMessage`, `IPCMessage.to_dict`, `IPCMessage.from_dict` mirror the
  message class of `ipc_client.py` (fields `id`, `type`, `method`, `args`,
  `result`, `error`; the constructor normalizes a falsy `args` to `[]`).
* `processMessage` mirrors `IPCServer._process_message`, `drain` /
  `processChunks` mirror the buffered line loop of
  `IPCServer._handle_client`, and `serverRun` mirrors the sequential
  accept loop of `IPCServer.start` (each accepted connection is handled
  to completion before the next accept).
* `baseHandler` mirrors the closure `handler` built in
  `BaseModule.start_ipc_server`.
* `parseJson` / `serializePVal` model `json.loads` / `json.dumps` (default
  options: item separator ", ", key separator ": ", `ensure_ascii`).
  Modelled subset: JSON numbers are integers only (the bridge's protocol
  traffic carries strings, integers and containers); a float-bearing or
  surrogate-escaped line is treated as undecodable.
* `b64encodeChunks` / `b64decodePy` model `base64.b64encode` /
  `base64.b64decode` on the standard alphabet; bytes are `Nat`s below 256.
* `getPipePath` mirrors `IPCServer._get_pipe_path`, with the platform test
  and `tempfile.gettempdir()` supplied as parameters (the path returned is
  a pure function of those and of the module identity; the `os.makedirs` /
  `os.unlink` side effects do not influence the returned string).
-/

/-- A Python value as it occurs in the bridge: a JSON value
(`null`/`bool`/`int`/`str`/`list`/`dict`) or a `bytes` object. -/
inductive PVal where
  | null : PVal
  | bool (b : Bool) : PVal
  | int (n : Int) : PVal
  | str (s : String) : PVal
  | bytes (b : List Nat) : PVal
  | arr (l : List PVal) : PVal
  | obj (l : List (String × PVal)) : PVal

/-- Python truthiness (`bool(v)`) for the values of `PVal`: `None`, `False`,
`0`, empty string/bytes/list/dict are falsy, everything else truthy. -/
def truthy : PVal → Bool
  | .null => false
  | .bool b => b
  | .int n => n != 0
  | .str s => s != ""
  | .bytes b => !b.isEmpty
  | .arr l => !l.isEmpty
  | .obj l => !l.isEmpty

/-- Lookup in a Python dict built by inserting the pairs in order
(`json.loads` object semantics): the LAST binding of a repeated key wins. -/
def lookupLast (kvs : List (String × PVal)) (k : String) : Option PVal :=
  kvs.foldl (fun acc p => if p.1 = k then some p.2 else acc) none

/-- Python `v == s` for a string literal `s`: true exactly when `v` is that
string (comparison of a non-string JSON value with a `str` is `False`). -/
def isStrVal (v : PVal) (s : String) : Bool :=
  match v with
  | .str t => t == s
  | _ => false

/-- The Python type name of a value, as it appears in `TypeError` texts. -/
def pyTypeName : PVal → String
  | .null => "NoneType"
  | .bool _ => "bool"
  | .int _ => "int"
  | .str _ => "str"
  | .bytes _ => "bytes"
  | .arr _ => "list"
  | .obj _ => "dict"

/-- Python `str(v)` for the scalar values that can reach the f-string in
`BaseModule.start_ipc_server.handler` (a non-string hashable method name).
Container and bytes renderings are approximations: no verified statement
depends on them (containers take the unhashable-type branch instead). -/
def pyScalarStr : PVal → String
  | .null => "None"
  | .bool true => "True"
  | .bool false => "False"
  | .int n => toString n
  | .str s => s
  | .bytes _ => "b"
  | .arr _ => "[...]"
  | .obj _ => "\x7b...\x7d"

/-- First-occurrence deduplication of dict keys (Python dict iteration
order keeps the first insertion position of a key). -/
def dedupKeysAux (seen : List String) : List String → List String
  | [] => []
  | k :: rest =>
    if seen.contains k then dedupKeysAux seen rest
    else k :: dedupKeysAux (k :: seen) rest

/-- Dict keys in iteration order. -/
def dedupKeys (l : List String) : List String := dedupKeysAux [] l

/-- Python iteration `for arg in v`: lists yield elements, strings yield
one-character strings, dicts yield keys, bytes yield ints; `None`, `bool`
and `int` raise `TypeError` (caught by `_process_message`'s `except`). -/
def pyIter : PVal → Except String (List PVal)
  | .arr l => .ok l
  | .str s => .ok (s.data.map (fun c => .str (String.mk [c])))
  | .obj kvs => .ok ((dedupKeys (kvs.map Prod.fst)).map PVal.str)
  | .bytes b => .ok (b.map (fun n => PVal.int (Int.ofNat n)))
  | v => .error ("'" ++ pyTypeName v ++ "' object is not iterable")

/-! ## Base64 (`base64.b64encode` / `base64.b64decode`) -/

/-- The standard base64 alphabet. -/
def b64Alphabet : List Char :=
  "ABCDEFGHIJKLMNOPQRSTUVWXYZabcdefghijklmnopqrstuvwxyz0123456789+/".data

/-- The alphabet character of a sextet. -/
def sextetToChar (n : Nat) : Char := b64Alphabet.getD n 'A'

/-- The sextet of an alphabet character (`none` for a non-alphabet one). -/
def toSextet (c : Char) : Option Nat := b64Alphabet.findIdx? (fun x => x = c)

/-- Whether a character belongs to the standard base64 alphabet. -/
def isB64Char (c : Char) : Bool := b64Alphabet.contains c

/-- `base64.b64encode`, three input bytes at a time: 1 leftover byte yields
two sextets and `==`, 2 leftover bytes three sextets and `=`. -/
def b64encodeChunks : List Nat → List Char
  | [] => []
  | [a] => [sextetToChar (a / 4), sextetToChar (a % 4 * 16), '=', '=']
  | [a, b] => [sextetToChar (a / 4), sextetToChar (a % 4 * 16 + b / 16),
               sextetToChar (b % 16 * 4), '=']
  | a :: b :: c :: rest =>
      sextetToChar (a / 4) :: sextetToChar (a % 4 * 16 + b / 16) ::
      sextetToChar (b % 16 * 4 + c / 64) :: sextetToChar (c % 64) ::
      b64encodeChunks rest

/-- `base64.b64encode(b).decode("utf-8")` as a string. -/
def b64encodeStr (bs : List Nat) : String := String.mk (b64encodeChunks bs)

/-- Decoding of a filtered base64 character sequence, four characters at a
time; padding is accepted at the very end only (the canonical encodings
produced by `b64encodeChunks` are exactly of this form). -/
def decodeClean : List Char → Except String (List Nat)
  | [] => .ok []
  | c1 :: c2 :: c3 :: c4 :: rest =>
    match toSextet c1, toSextet c2 with
    | some s1, some s2 =>
      if c3 = '=' then
        if c4 = '=' ∧ rest = [] then .ok [s1 * 4 + s2 / 16]
        else .error "Invalid base64-encoded string"
      else
        match toSextet c3 with
        | some s3 =>
          if c4 = '=' then
            if rest = [] then .ok [s1 * 4 + s2 / 16, s2 % 16 * 16 + s3 / 4]
            else .error "Invalid base64-encoded string"
          else
            match toSextet c4 with
            | some s4 =>
              (decodeClean rest).map
                (fun tl => (s1 * 4 + s2 / 16) :: (s2 % 16 * 16 + s3 / 4) ::
                           (s3 % 4 * 64 + s4) :: tl)
            | none => .error "Invalid base64-encoded string"
        | none => .error "Invalid base64-encoded string"
    | _, _ => .error "Invalid base64-encoded string"
  | _ => .error "Incorrect padding"

/-- `base64.b64decode` on a `str` argument: reject non-ASCII, discard
characters outside alphabet-or-padding, require a length that is a
multiple of four, then decode groups. -/
def b64decodePy (s : String) : Except String (List Nat) :=
  if s.data.any (fun c => 128 ≤ c.toNat) then
    .error "string argument should contain only ASCII characters"
  else
    let cs := s.data.filter (fun c => isB64Char c || c == '=')
    if cs.length % 4 = 0 then decodeClean cs else .error "Incorrect padding"

/-! ## `IPCMessage` -/

/-- The `IPCMessage` object of `ipc_client.py`: six attributes, all of them
Python values. (`id` and `type` are strings in every message the server
itself builds, but `from_dict` stores whatever the wire carried.) -/
structure IPCMessage where
  id : PVal
  type : PVal
  method : PVal
  args : PVal
  result : PVal
  error : PVal

/-- The `IPCMessage.__init__` constructor: stores the fields, normalizing a
falsy `args` (`None`, `[]`, ...) to `[]` via `self.args = args or []`. -/
def mkMessage (msgId msgType method args result error : PVal) : IPCMessage :=
  ⟨msgId, msgType, method, if truthy args then args else .arr [], result, error⟩

/-- `IPCMessage.to_dict`: a dict literal with the six fields, in the
insertion order of the source. -/
def IPCMessage.to_dict (m : IPCMessage) : PVal :=
  .obj [("id", m.id), ("type", m.type), ("method", m.method),
        ("args", m.args), ("result", m.result), ("error", m.error)]

/-- `IPCMessage.from_dict`: `data.get("id", "")`, `data.get("type", "")`,
`data.get(...)` for the rest, fed to the constructor. A non-dict argument
raises (`AttributeError` on `.get`), modelled as `none`. -/
def IPCMessage.from_dict : PVal → Option IPCMessage
  | .obj kvs =>
    some (mkMessage
      ((lookupLast kvs "id").getD (.str ""))
      ((lookupLast kvs "type").getD (.str ""))
      ((lookupLast kvs "method").getD .null)
      ((lookupLast kvs "args").getD .null)
      ((lookupLast kvs "result").getD .null)
      ((lookupLast kvs "error").getD .null))
  | _ => none

/-! ## `IPCServer._process_message` -/

/-- The buffer-tag test of `_process_message`:
`isinstance(arg, dict) and arg.get("__type") == "Buffer"`. -/
def isBufferTag (kvs : List (String × PVal)) : Bool :=
  match lookupLast kvs "__type" with
  | some (.str t) => t == "Buffer"
  | _ => false

/-- Deserialization of one `args` element: a dict whose `"__type"` is
`"Buffer"` becomes `base64.b64decode(arg["data"])`; a missing `"data"` key
raises `KeyError` (whose `str` is the quoted key); a non-decodable `"data"`
raises inside `b64decode`; every other value passes through unchanged. -/
def decodeArg : PVal → Except String PVal
  | .obj kvs =>
    if isBufferTag kvs then
      match lookupLast kvs "data" with
      | none => .error "'data'"
      | some (.str s) => (b64decodePy s).map PVal.bytes
      | some (.bytes b) => (b64decodePy (String.mk (b.map Char.ofNat))).map PVal.bytes
      | some v =>
        .error ("argument should be a bytes-like object or ASCII string, not '"
                ++ pyTypeName v ++ "'")
    else .ok (.obj kvs)
  | v => .ok v

/-- The argument-deserialization loop of `_process_message`:
`for arg in message.args` followed by per-element buffer decoding; the
first raised failure aborts the loop. -/
def decodeArgs (a : PVal) : Except String (List PVal) :=
  (pyIter a).bind (fun l => l.mapM decodeArg)

/-- Serialization of the handler result: a raw `bytes` value becomes the
tagged-buffer dict, everything else passes through unchanged. -/
def wrapResult : PVal → PVal
  | .bytes b => .obj [("__type", .str "Buffer"), ("data", .str (b64encodeStr b))]
  | v => v

/-- The error reply `IPCMessage(msg_id=i, msg_type="error", error=e)`
(constructor defaults: `method=None`, `args=None` hence `[]`, `result=None`). -/
def mkErr (i : PVal) (e : String) : IPCMessage :=
  mkMessage i (.str "error") .null .null .null (.str e)

/-- `IPCServer._process_message`: reject a non-`"request"` type, reject a
falsy method, then deserialize the arguments, call the handler and wrap
the result; any failure raised inside the `try` block is converted to an
error reply carrying `str(e)`. The function always returns a message. -/
def processMessage (h : PVal → List PVal → Except String PVal)
    (m : IPCMessage) : IPCMessage :=
  if isStrVal m.type "request" then
    if truthy m.method then
      match decodeArgs m.args with
      | .error e => mkErr m.id e
      | .ok args =>
        match h m.method args with
        | .error e => mkErr m.id e
        | .ok r => mkMessage m.id (.str "response") .null .null (wrapResult r) .null
    else mkErr m.id "Método no especificado"
  else mkErr m.id "Tipo de mensaje inválido"

/-! ## `BaseModule.start_ipc_server.handler` -/

/-- The dispatch closure built by `BaseModule.start_ipc_server`: raise
`AttributeError` (with the method name in the text) when the name is not a
key of the registry, otherwise call the registered method with the
arguments unpacked positionally. A non-string method value is first probed
by `method_name not in methods`: unhashable containers raise `TypeError`,
hashable non-strings are simply absent. -/
def baseHandler (methods : List (String × (List PVal → Except String PVal)))
    (modName : String) : PVal → List PVal → Except String PVal :=
  fun mv args =>
    match mv with
    | .arr _ => .error "unhashable type: 'list'"
    | .obj _ => .error "unhashable type: 'dict'"
    | .str name =>
      match methods.lookup name with
      | none => .error ("Método '" ++ name ++ "' no encontrado en " ++ modName)
      | some f => f args
    | v => .error ("Método '" ++ pyScalarStr v ++ "' no encontrado en " ++ modName)

/-- A one-argument identity method, as a registry entry (`lambda x: x`);
a wrong arity raises `TypeError` as any Python call would. -/
def identityMethod : List PVal → Except String PVal
  | [a] => .ok a
  | args => .error ("identity takes 1 positional argument but "
                    ++ toString args.length ++ " were given")

/-- A registry mapping `"echo"` to the identity function. -/
def echoMethods : List (String × (List PVal → Except String PVal)) :=
  [("echo", identityMethod)]

/-- The worker handler of the end-to-end scenario: `baseHandler` over the
`echo` registry. -/
def echoHandler : PVal → List PVal → Except String PVal :=
  baseHandler echoMethods "worker"

/-! ## `json.dumps` (default separators, `ensure_ascii=True`) -/

/-- A lowercase hexadecimal digit. -/
def hexDigit (n : Nat) : Char := "0123456789abcdef".data.getD n '0'

/-- Four lowercase hexadecimal digits of a code point below 2^16. -/
def hex4 (n : Nat) : String :=
  String.mk [hexDigit (n / 4096 % 16), hexDigit (n / 256 % 16),
             hexDigit (n / 16 % 16), hexDigit (n % 16)]

/-- `json.dumps` escaping of one string character (`ensure_ascii=True`):
quote, backslash and the named control escapes, `\uXXXX` for the other
control characters and for everything outside printable ASCII (a code
point beyond the basic plane becomes a surrogate pair). -/
def escChar (c : Char) : String :=
  if c = '"' then "\\\""
  else if c = '\\' then "\\\\"
  else if c = '\n' then "\\n"
  else if c = '\r' then "\\r"
  else if c = '\t' then "\\t"
  else if c.toNat = 8 then "\\b"
  else if c.toNat = 12 then "\\f"
  else if c.toNat < 32 then "\\u" ++ hex4 c.toNat
  else if c.toNat < 127 then String.mk [c]
  else if c.toNat < 65536 then "\\u" ++ hex4 c.toNat
  else
    "\\u" ++ hex4 (55296 + (c.toNat - 65536) / 1024) ++
    "\\u" ++ hex4 (56320 + (c.toNat - 65536) % 1024)

/-- A serialized JSON string literal. -/
def serStr (s : String) : String :=
  "\"" ++ String.join (s.data.map escChar) ++ "\""

mutual

/-- `json.dumps` with the default options: item separator `", "`, key
separator `": "`. A `bytes` value anywhere raises `TypeError`, modelled as
`none` (the caller in `_handle_client` catches it). -/
def serializePVal : PVal → Option String
  | .null => some "null"
  | .bool true => some "true"
  | .bool false => some "false"
  | .int n => some (toString n)
  | .str s => some (serStr s)
  | .bytes _ => none
  | .arr l => (serializeList l).map (fun s => "[" ++ s ++ "]")
  | .obj kvs => (serializeObj kvs).map (fun s => "\x7b" ++ s ++ "\x7d")

/-- Array elements, `", "`-separated. -/
def serializeList : List PVal → Option String
  | [] => some ""
  | [v] => serializePVal v
  | v :: rest =>
    match serializePVal v, serializeList rest with
    | some a, some b => some (a ++ ", " ++ b)
    | _, _ => none

/-- Object entries, `", "`-separated, `": "` between key and value. -/
def serializeObj : List (String × PVal) → Option String
  | [] => some ""
  | [(k, v)] => (serializePVal v).map (fun s => serStr k ++ ": " ++ s)
  | (k, v) :: rest =>
    match serializePVal v, serializeObj rest with
    | some a, some b => some (serStr k ++ ": " ++ a ++ ", " ++ b)
    | _, _ => none

end

/-! ## `json.loads` (modelled subset: no floats, no surrogate escapes) -/

/-- JSON whitespace. -/
def isJsonWs (c : Char) : Bool := c == ' ' || c == '\t' || c == '\n' || c == '\r'

/-- Drop leading JSON whitespace. -/
def skipWs : List Char → List Char
  | [] => []
  | c :: rest => if isJsonWs c then skipWs rest else c :: rest

/-- The value of a hexadecimal digit character. -/
def hexVal (c : Char) : Option Nat :=
  if '0' ≤ c ∧ c ≤ '9' then some (c.toNat - 48)
  else if 'a' ≤ c ∧ c ≤ 'f' then some (c.toNat - 87)
  else if 'A' ≤ c ∧ c ≤ 'F' then some (c.toNat - 55)
  else none

/-- The character of a single-character JSON escape. -/
def escCharOf (e : Char) : Option Char :=
  if e = '"' then some '"'
  else if e = '\\' then some '\\'
  else if e = '/' then some '/'
  else if e = 'n' then some '\n'
  else if e = 't' then some '\t'
  else if e = 'r' then some '\r'
  else if e = 'b' then some '\x08'
  else if e = 'f' then some '\x0c'
  else none

/-- Match an expected literal character sequence. -/
def expectLit : List Char → List Char → Option (List Char)
  | [], cs => some cs
  | p :: ps, c :: cs => if c = p then expectLit ps cs else none
  | _ :: _, [] => none

/-- Split off a maximal run of decimal digits. -/
def takeDigits : List Char → (List Char × List Char)
  | [] => ([], [])
  | c :: rest =>
    if c.isDigit then
      let p := takeDigits rest
      (c :: p.1, p.2)
    else ([], c :: rest)

/-- The number denoted by a digit run. -/
def digitsVal (ds : List Char) : Nat :=
  ds.foldl (fun a c => a * 10 + (c.toNat - 48)) 0

/-- Parse a JSON integer: optional minus, digits, no redundant leading
zero; a following `.`, `e` or `E` would start a float, which the model
does not support (such a line counts as undecodable). -/
def parseIntChars (cs : List Char) : Option (Int × List Char) :=
  let sgn := match cs with
    | '-' :: rest => (true, rest)
    | _ => (false, cs)
  match takeDigits sgn.2 with
  | ([], _) => none
  | (ds, rest) =>
    if 1 < ds.length ∧ ds.headD '0' = '0' then none
    else
      let keep : Bool := match rest with
        | c :: _ => !(c == '.' || c == 'e' || c == 'E')
        | [] => true
      if keep then
        some (if sgn.1 then -(digitsVal ds : Int) else (digitsVal ds : Int), rest)
      else none

/-- Parse the body of a JSON string literal (after the opening quote),
returning the content and the text after the closing quote. Unescaped
control characters are rejected, as `json.loads` (strict mode) rejects
them; a `\uXXXX` escape denoting a surrogate is outside the modelled
subset. -/
def parseStringBody : Nat → List Char → Option (List Char × List Char)
  | 0, _ => none
  | _ + 1, [] => none
  | f + 1, c :: rest =>
    if c = '"' then some ([], rest)
    else if c = '\\' then
      match rest with
      | 'u' :: h1 :: h2 :: h3 :: h4 :: rest2 =>
        match hexVal h1, hexVal h2, hexVal h3, hexVal h4 with
        | some a, some b, some c2, some d =>
          let code := a * 4096 + b * 256 + c2 * 16 + d
          if 55296 ≤ code ∧ code < 57344 then none
          else (parseStringBody f rest2).map (fun p => (Char.ofNat code :: p.1, p.2))
        | _, _, _, _ => none
      | e :: rest2 =>
        match escCharOf e with
        | some ec => (parseStringBody f rest2).map (fun p => (ec :: p.1, p.2))
        | none => none
      | [] => none
    else if c.toNat < 32 then none
    else (parseStringBody f rest).map (fun p => (c :: p.1, p.2))

mutual

/-- Parse one JSON value (fuel-indexed; `parseJson` supplies ample fuel). -/
def parseValue : Nat → List Char → Option (PVal × List Char)
  | 0, _ => none
  | f + 1, cs =>
    match skipWs cs with
    | [] => none
    | c :: rest =>
      if c = '"' then
        (parseStringBody f rest).map (fun p => (.str (String.mk p.1), p.2))
      else if c = '\x7b' then
        match skipWs rest with
        | '\x7d' :: rest2 => some (.obj [], rest2)
        | cs2 => (parseObjItems f cs2).map (fun p => (.obj p.1, p.2))
      else if c = '[' then
        match skipWs rest with
        | ']' :: rest2 => some (.arr [], rest2)
        | cs2 => (parseArrItems f cs2).map (fun p => (.arr p.1, p.2))
      else if c = 't' then (expectLit ['r', 'u', 'e'] rest).map (fun r => (.bool true, r))
      else if c = 'f' then (expectLit ['a', 'l', 's', 'e'] rest).map (fun r => (.bool false, r))
      else if c = 'n' then (expectLit ['u', 'l', 'l'] rest).map (fun r => (.null, r))
      else (parseIntChars (c :: rest)).map (fun p => (.int p.1, p.2))

/-- Parse the remaining elements of a nonempty JSON array. -/
def parseArrItems : Nat → List Char → Option (List PVal × List Char)
  | 0, _ => none
  | f + 1, cs =>
    (parseValue f cs).bind (fun vp =>
      match skipWs vp.2 with
      | ',' :: rest => (parseArrItems f rest).map (fun ap => (vp.1 :: ap.1, ap.2))
      | ']' :: rest => some ([vp.1], rest)
      | _ => none)

/-- Parse the remaining entries of a nonempty JSON object. -/
def parseObjItems : Nat → List Char → Option (List (String × PVal) × List Char)
  | 0, _ => none
  | f + 1, cs =>
    match skipWs cs with
    | '"' :: rest =>
      (parseStringBody f rest).bind (fun kp =>
        match skipWs kp.2 with
        | ':' :: rest2 =>
          (parseValue f rest2).bind (fun vp =>
            match skipWs vp.2 with
            | ',' :: rest3 =>
              (parseObjItems f rest3).map
                (fun op => ((String.mk kp.1, vp.1) :: op.1, op.2))
            | '\x7d' :: rest3 => some ([(String.mk kp.1, vp.1)], rest3)
            | _ => none)
        | _ => none)
    | _ => none

end

/-- `json.loads` over the modelled subset: one value, then only trailing
whitespace. -/
def parseJson (s : String) : Option PVal :=
  match parseValue (s.length + 10) s.data with
  | some (v, rest) => if skipWs rest = [] then some v else none
  | none => none

/-! ## The per-connection session loop (`IPCServer._handle_client`) -/

/-- Whether `line.strip()` is empty (Python default whitespace). -/
def isBlankLine (s : String) : Bool :=
  s.data.all (fun c => c == ' ' || c == '\t' || c == '\n' || c == '\r' ||
                       c == '\x0b' || c == '\x0c')

/-- The serialized reply for a message: `json.dumps(response.to_dict())`,
which raises (`none`) when the handler result still holds raw bytes in a
nested position. -/
def serializeMessage (m : IPCMessage) : Option String :=
  serializePVal m.to_dict

/-- The `try` body of the per-line loop in `_handle_client`:
`json.loads`, `from_dict`, `_process_message`, `json.dumps` + newline.
Any failure (`none` at any stage) is caught by the `except` clause, which
only logs: no reply is written for that line and the loop continues. -/
def handleLine (h : PVal → List PVal → Except String PVal)
    (line : String) : Option String :=
  match parseJson line with
  | none => none
  | some j =>
    match IPCMessage.from_dict j with
    | none => none
    | some msg =>
      match serializeMessage (processMessage h msg) with
      | none => none
      | some s => some (s ++ "\n")

/-- The replies written for one extracted line: a blank line is skipped
(`if not line.strip(): continue`), otherwise the reply of `handleLine`
when one is produced. -/
def lineOut (h : PVal → List PVal → Except String PVal)
    (line : String) : List String :=
  if isBlankLine line then []
  else
    match handleLine h line with
    | none => []
    | some out => [out]

/-- Split a buffer at every newline: `n` newlines yield `n + 1` segments;
the last segment is the (possibly empty) text after the last newline. -/
def splitNl : List Char → List (List Char)
  | [] => [[]]
  | c :: t =>
    if c = '\n' then [] :: splitNl t
    else
      match splitNl t with
      | [] => [[c]]
      | s :: ss => (c :: s) :: ss

/-- Process the segments of a buffer: every segment but the last is a
complete line (the `while "\n" in buffer` loop); the last is the new
buffer remainder. -/
def processParts (h : PVal → List PVal → Except String PVal) :
    List (List Char) → List String × List Char
  | [] => ([], [])
  | [last] => ([], last)
  | l :: rest =>
    let p := processParts h rest
    (lineOut h (String.mk l) ++ p.1, p.2)

/-- Drain every complete line out of the receive buffer, returning the
replies written and the leftover partial line. -/
def drain (h : PVal → List PVal → Except String PVal)
    (cs : List Char) : List String × List Char :=
  processParts h (splitNl cs)

/-- The receive loop of `_handle_client` over the successive nonempty
`recv` results: append each chunk to the buffer, drain complete lines,
keep the remainder. An unterminated final line is never processed. -/
def processChunks (h : PVal → List PVal → Except String PVal) :
    List Char → List String → List String
  | _, [] => []
  | buf, ch :: rest =>
    let p := drain h (buf ++ ch.data)
    p.1 ++ processChunks h p.2 rest

/-- One accepted connection: the successive nonempty `recv` payloads, and
whether the peer closes afterwards (`recv` returning empty data). When
`closes` is false the session blocks forever in `recv`. -/
structure Conn where
  chunks : List String
  closes : Bool

/-- The replies written on a connection. -/
def sessionOuts (h : PVal → List PVal → Except String PVal)
    (c : Conn) : List String :=
  processChunks h [] c.chunks

/-- `_handle_client` as observed by the accept loop: `some` replies when
the session terminates (peer closed), `none` when the session never
returns because `recv` blocks forever on a peer that neither sends nor
closes. -/
def sessionRun (h : PVal → List PVal → Except String PVal)
    (c : Conn) : Option (List String) :=
  if c.closes then some (sessionOuts h c) else none

/-- The accept loop of `IPCServer.start`: connections are accepted one at
a time and each is handled to completion by a synchronous call to
`_handle_client` before the next accept; a session that never returns
therefore starves every later connection (`none`). -/
def serverRun (h : PVal → List PVal → Except String PVal) :
    List Conn → Option (List (List String))
  | [] => some []
  | c :: rest =>
    match sessionRun h c with
    | none => none
    | some outs => (serverRun h rest).map (fun l => outs :: l)

/-! ## `IPCServer._get_pipe_path` -/

/-- Python `s.replace(old, new)` for a single-character pattern: replace
every occurrence of the character. -/
def replaceChar (c r : Char) (s : String) : String :=
  String.mk (s.data.map (fun x => if x = c then r else x))

/-- The sanitization of `_get_pipe_path`:
`module_name.replace("/", "-").replace("\\", "-")`. -/
def sanitizeName (s : String) : String :=
  replaceChar '\\' '-' (replaceChar '/' '-' s)

/-- `os.path.join` for one POSIX component. -/
def joinPath (a b : String) : String :=
  if b.startsWith "/" then b
  else if a = "" || a.endsWith "/" then a ++ b
  else a ++ "/" ++ b

/-- `IPCServer._get_pipe_path` as a function of the platform test, of
`tempfile.gettempdir()` and of the module identity: sanitize the name,
concatenate `name-version-language`, and place it under the
`adc-platform` namespace of the temporary directory (POSIX) or under the
named-pipe prefix (Windows). -/
def getPipePath (isWindows : Bool) (tmpdir name version language : String) : String :=
  let pipeName := sanitizeName name ++ "-" ++ version ++ "-" ++ language
  if isWindows then "\\\\.\\pipe\\" ++ pipeName
  else joinPath (joinPath tmpdir "adc-platform") pipeName

/-! ## Concrete scenario data -/

/-- The request line of the end-to-end scenario, with the message kind
spelled `kind` as in the spec's wire-protocol grammar. -/
def kindRequestLine : String :=
  "\x7b\"id\":\"1\",\"kind\":\"request\",\"method\":\"echo\",\"args\":[\"hi\"]\x7d"

/-- The reply the spec's grammar claims for the scenario, newline included. -/
def claimedResponseLine : String :=
  "\x7b\"id\":\"1\",\"kind\":\"response\",\"result\":\"hi\"\x7d\n"

/-- The request line of the end-to-end scenario, spelled with the `type`
field the code actually reads. -/
def typeRequestLine : String :=
  "\x7b\"id\": \"1\", \"type\": \"request\", \"method\": \"echo\", \"args\": [\"hi\"]\x7d"

/-- The reply the code actually writes for `typeRequestLine`. -/
def echoResponseLine : String :=
  "\x7b\"id\": \"1\", \"type\": \"response\", \"method\": null, \"args\": [], \"result\": \"hi\", \"error\": null\x7d\n"

/-- The reply the code writes for `kindRequestLine` (no `type` key, so
`from_dict` defaults the type to `""` and `_process_message` rejects it). -/
def invalidTypeReplyLine : String :=
  "\x7b\"id\": \"1\", \"type\": \"error\", \"method\": null, \"args\": [], \"result\": null, \"error\": \"Tipo de mensaje inv\\u00e1lido\"\x7d\n"

/-- A request for the unregistered method `noop`. -/
def noopRequestLine : String :=
  "\x7b\"id\": \"2\", \"type\": \"request\", \"method\": \"noop\", \"args\": []\x7d"

/-- The error reply for `noopRequestLine` against the `echo` registry. -/
def noopReplyLine : String :=
  "\x7b\"id\": \"2\", \"type\": \"error\", \"method\": null, \"args\": [], \"result\": null, \"error\": \"M\\u00e9todo 'noop' no encontrado en worker\"\x7d\n"

/-- A registered method whose body raises (`raise ValueError("kaput")`). -/
def failingMethod : List PVal → Except String PVal := fun _ => .error "kaput"

/-- A handler over a registry whose `boom` method always raises. -/
def boomHandler : PVal → List PVal → Except String PVal :=
  baseHandler [("boom", failingMethod)] "worker"

/-- A request invoking the raising method `boom`. -/
def boomRequestLine : String :=
  "\x7b\"id\": \"7\", \"type\": \"request\", \"method\": \"boom\", \"args\": []\x7d"

/-- The error reply for `boomRequestLine`. -/
def boomReplyLine : String :=
  "\x7b\"id\": \"7\", \"type\": \"error\", \"method\": null, \"args\": [], \"result\": null, \"error\": \"kaput\"\x7d\n"

/-! ## Helper lemmas: base64 -/

theorem toSextet_sextetToChar : ∀ n, n < 64 → toSextet (sextetToChar n) = some n := by
  decide

theorem isB64Char_sextetToChar : ∀ n, n < 64 → isB64Char (sextetToChar n) = true := by
  decide

theorem sextetToChar_ne_pad : ∀ n, n < 64 → sextetToChar n ≠ '=' := by
  decide

theorem sextetToChar_ascii : ∀ n, n < 64 → (sextetToChar n).toNat < 128 := by
  decide

/-- Decoding inverts encoding on byte sequences (bytes are below 256). -/
theorem decodeClean_encode (l : List Nat) (hl : ∀ x ∈ l, x < 256) :
    decodeClean (b64encodeChunks l) = .ok l := by
  induction l using b64encodeChunks.induct with
  | case1 => rfl
  | case2 a =>
    have ha : a < 256 := hl a (by simp)
    simp [b64encodeChunks, decodeClean,
          toSextet_sextetToChar (a / 4) (by omega),
          toSextet_sextetToChar (a % 4 * 16) (by omega)]
    omega
  | case3 a b =>
    have ha : a < 256 := hl a (by simp)
    have hb : b < 256 := hl b (by simp)
    have h3 := sextetToChar_ne_pad (b % 16 * 4) (by omega)
    simp [b64encodeChunks, decodeClean, h3,
          toSextet_sextetToChar (a / 4) (by omega),
          toSextet_sextetToChar (a % 4 * 16 + b / 16) (by omega),
          toSextet_sextetToChar (b % 16 * 4) (by omega)]
    constructor <;> omega
  | case4 a b c rest ih =>
    have ha : a < 256 := hl a (by simp)
    have hb : b < 256 := hl b (by simp)
    have hc : c < 256 := hl c (by simp)
    have hrest : ∀ x ∈ rest, x < 256 := fun x hx => hl x (by simp [hx])
    have h3 := sextetToChar_ne_pad (b % 16 * 4 + c / 64) (by omega)
    have h4 := sextetToChar_ne_pad (c % 64) (by omega)
    simp [b64encodeChunks, decodeClean, h3, h4,
          toSextet_sextetToChar (a / 4) (by omega),
          toSextet_sextetToChar (a % 4 * 16 + b / 16) (by omega),
          toSextet_sextetToChar (b % 16 * 4 + c / 64) (by omega),
          toSextet_sextetToChar (c % 64) (by omega),
          ih hrest, Except.map]
    omega

/-- Every character an encoding produces is an alphabet character or the
padding character, and is ASCII. -/
theorem encode_chars (l : List Nat) (hl : ∀ x ∈ l, x < 256) :
    ∀ c ∈ b64encodeChunks l, ((isB64Char c || c == '=') = true ∧ c.toNat < 128) := by
  induction l using b64encodeChunks.induct with
  | case1 => simp [b64encodeChunks]
  | case2 a =>
    have ha : a < 256 := hl a (by simp)
    intro c hc
    simp [b64encodeChunks] at hc
    rcases hc with h | h | h
    · subst h; simp [isB64Char_sextetToChar _ (by omega : a / 4 < 64),
                     sextetToChar_ascii _ (by omega : a / 4 < 64)]
    · subst h; simp [isB64Char_sextetToChar _ (by omega : a % 4 * 16 < 64),
                     sextetToChar_ascii _ (by omega : a % 4 * 16 < 64)]
    · subst h; decide
  | case3 a b =>
    have ha : a < 256 := hl a (by simp)
    have hb : b < 256 := hl b (by simp)
    intro c hc
    simp [b64encodeChunks] at hc
    rcases hc with h | h | h | h
    · subst h; simp [isB64Char_sextetToChar _ (by omega : a / 4 < 64),
                     sextetToChar_ascii _ (by omega : a / 4 < 64)]
    · subst h; simp [isB64Char_sextetToChar _ (by omega : a % 4 * 16 + b / 16 < 64),
                     sextetToChar_ascii _ (by omega : a % 4 * 16 + b / 16 < 64)]
    · subst h; simp [isB64Char_sextetToChar _ (by omega : b % 16 * 4 < 64),
                     sextetToChar_ascii _ (by omega : b % 16 * 4 < 64)]
    · subst h; decide
  | case4 a b c rest ih =>
    have ha : a < 256 := hl a (by simp)
    have hb : b < 256 := hl b (by simp)
    have hc : c < 256 := hl c (by simp)
    have hrest : ∀ x ∈ rest, x < 256 := fun x hx => hl x (by simp [hx])
    intro d hd
    simp [b64encodeChunks] at hd
    rcases hd with h | h | h | h | h
    · subst h; simp [isB64Char_sextetToChar _ (by omega : a / 4 < 64),
                     sextetToChar_ascii _ (by omega : a / 4 < 64)]
    · subst h; simp [isB64Char_sextetToChar _ (by omega : a % 4 * 16 + b / 16 < 64),
                     sextetToChar_ascii _ (by omega : a % 4 * 16 + b / 16 < 64)]
    · subst h; simp [isB64Char_sextetToChar _ (by omega : b % 16 * 4 + c / 64 < 64),
                     sextetToChar_ascii _ (by omega : b % 16 * 4 + c / 64 < 64)]
    · subst h; simp [isB64Char_sextetToChar _ (by omega : c % 64 < 64),
                     sextetToChar_ascii _ (by omega : c % 64 < 64)]
    · exact ih hrest d h

/-- Encodings have a length that is a multiple of four. -/
theorem encode_length (l : List Nat) : (b64encodeChunks l).length % 4 = 0 := by
  induction l using b64encodeChunks.induct with
  | case1 => rfl
  | case2 a => simp [b64encodeChunks]
  | case3 a b => simp [b64encodeChunks]
  | case4 a b c rest ih => simp [b64encodeChunks]; omega

/-- `base64.b64decode(base64.b64encode(l)) == l` for byte sequences. -/
theorem b64_roundtrip (l : List Nat) (hl : ∀ x ∈ l, x < 256) :
    b64decodePy (b64encodeStr l) = .ok l := by
  unfold b64decodePy b64encodeStr
  have hmem := encode_chars l hl
  have hany : (b64encodeChunks l).any (fun c => decide (128 ≤ c.toNat)) = false := by
    rw [List.any_eq_false]
    intro c hc
    have := (hmem c hc).2
    simp
    omega
  have hfil : (b64encodeChunks l).filter (fun c => isB64Char c || c == '=') = b64encodeChunks l :=
    List.filter_eq_self.mpr (fun c hc => (hmem c hc).1)
  rw [hany, hfil]
  simp [encode_length l, decodeClean_encode l hl]

/-! ## Helper lemmas: the session buffer loop -/

theorem splitNl_ne_nil (cs : List Char) : splitNl cs ≠ [] := by
  induction cs with
  | nil => simp [splitNl]
  | cons c t ih =>
    simp only [splitNl]
    split
    · simp
    · split <;> simp

theorem splitNl_append (l rest : List Char) (h : '\n' ∉ l) :
    splitNl (l ++ '\n' :: rest) = l :: splitNl rest := by
  induction l with
  | nil => simp [splitNl]
  | cons c t ih =>
    have hc : ¬ c = '\n' := fun hh => h (by simp [hh])
    have ht : '\n' ∉ t := fun hm => h (List.mem_cons_of_mem _ hm)
    simp only [List.cons_append, splitNl]
    rw [if_neg hc, List.append_eq, ih ht]

/-- Draining a buffer that starts with one complete line processes that
line and then continues exactly as the rest of the buffer alone would:
the loop of `_handle_client` handles lines independently. -/
theorem drain_line (h : PVal → List PVal → Except String PVal) (l rest : List Char)
    (hnl : '\n' ∉ l) :
    drain h (l ++ '\n' :: rest) =
      (lineOut h (String.mk l) ++ (drain h rest).1, (drain h rest).2) := by
  unfold drain
  rw [splitNl_append l rest hnl]
  obtain ⟨s, ss, hss⟩ : ∃ s ss, splitNl rest = s :: ss := by
    cases hsp : splitNl rest with
    | nil => exact absurd hsp (splitNl_ne_nil rest)
    | cons s ss => exact ⟨s, ss, rfl⟩
  rw [hss]
  rfl

theorem joinPath_suffix (a b : String) : ∃ pre, joinPath a b = pre ++ b := by
  unfold joinPath
  split_ifs with h1 h2
  · exact ⟨"", rfl⟩
  · exact ⟨a, rfl⟩
  · exact ⟨a ++ "/", rfl⟩

/-! ## Claims -/

/-- C1 (counterexample): on the exact scenario line of the claim — the one
spelled with a `kind` field — the session does not write the claimed
`kind`-spelled response line: `from_dict` reads a `type` key, finds none,
and `_process_message` answers with an invalid-type error reply carrying
all six wire fields. -/
theorem c1_kind_spelling_counterexample :
    sessionOuts echoHandler ⟨[kindRequestLine ++ "\n"], true⟩ = [invalidTypeReplyLine] ∧
    invalidTypeReplyLine ≠ claimedResponseLine :=
  ⟨rfl, by decide⟩

/-- C1 (amended): for a worker whose registry maps `echo` to the identity
function, a session that receives the single request line spelled with the
`type` field writes back exactly one line: the response carrying all six
message fields (`method`, `args`, `error` at their defaults), with the
kind field spelled `type`, followed by a line separator. -/
theorem c1_echo_session_reply :
    sessionOuts echoHandler ⟨[typeRequestLine ++ "\n"], true⟩ = [echoResponseLine] := rfl

/-- C2 (amended): for every received line that fails structured-text
decoding, the failure is caught inside the per-line loop: NO reply is
written for that line, and the session processes the rest of the buffer
exactly as if the malformed line had not been there (the connection stays
open). -/
theorem c2_malformed_line_no_reply (h : PVal → List PVal → Except String PVal)
    (line : String) (rest : List Char) (hp : parseJson line = none)
    (hnl : '\n' ∉ line.data) (hb : isBlankLine line = false) :
    drain h (line.data ++ '\n' :: rest) = drain h rest := by
  rw [drain_line h line.data rest hnl,
      show String.mk line.data = line from rfl]
  simp [lineOut, hb, handleLine, hp]

/-- C2 (witness): the malformed line `nonsense` is decodable by neither
`json.loads` nor the model; draining it leaves the session state exactly
as an empty buffer would. -/
theorem c2_malformed_line_witness :
    drain echoHandler (("nonsense").data ++ '\n' :: []) = drain echoHandler [] :=
  c2_malformed_line_no_reply echoHandler "nonsense" [] rfl (by decide) rfl

/-- C2 (counterexample): a session fed a malformed line followed by a valid
echo request writes exactly ONE reply — the echo response — and none for
the malformed line, refuting the claim that a synthesized error message is
written back for it. -/
theorem c2_error_reply_counterexample :
    sessionOuts echoHandler ⟨["nonsense\n" ++ typeRequestLine ++ "\n"], true⟩ =
      [echoResponseLine] := rfl

/-- C3 (amended): a raw-bytes result is encoded as a dict whose field
named `__type` (not `marker`) holds `"Buffer"` and whose `data` field
holds the base64 text; on decode, every top-level `args` element that is a
dict whose `__type` field equals `"Buffer"` (extra keys permitted, so not
"exactly that shape") has its `data` field base64-decoded to raw bytes,
and every other dict passes through unchanged. -/
theorem c3_buffer_tag_shape :
    (∀ bs : List Nat, wrapResult (.bytes bs) =
      .obj [("__type", .str "Buffer"), ("data", .str (b64encodeStr bs))]) ∧
    (∀ (kvs : List (String × PVal)) (s : String), isBufferTag kvs = true →
      lookupLast kvs "data" = some (.str s) →
      decodeArg (.obj kvs) = (b64decodePy s).map PVal.bytes) ∧
    (∀ kvs : List (String × PVal), isBufferTag kvs = false →
      decodeArg (.obj kvs) = .ok (.obj kvs)) := by
  refine ⟨fun bs => rfl, ?_, ?_⟩
  · intro kvs s htag hdata
    simp [decodeArg, htag, hdata]
  · intro kvs htag
    simp [decodeArg, htag]

/-- C3 (witness): the tagged dict with field `__type` is decoded to bytes,
and a dict without the `__type` tag passes through unchanged. -/
theorem c3_buffer_tag_witness :
    decodeArg (.obj [("__type", PVal.str "Buffer"), ("data", PVal.str "aGk=")]) =
      (b64decodePy "aGk=").map PVal.bytes ∧
    decodeArg (.obj [("x", PVal.int 1)]) = .ok (.obj [("x", PVal.int 1)]) :=
  ⟨c3_buffer_tag_shape.2.1 _ "aGk=" rfl rfl, c3_buffer_tag_shape.2.2 _ rfl⟩

/-- C3 (counterexample): the wire field is named `__type`, not `marker`:
encoding the bytes of `"hi"` yields a dict with no `marker` field, and an
args element of exactly the claimed `marker` shape is NOT converted to raw
bytes — it passes through unchanged. -/
theorem c3_marker_field_counterexample :
    wrapResult (.bytes [104, 105]) =
      .obj [("__type", .str "Buffer"), ("data", .str "aGk=")] ∧
    lookupLast [("__type", PVal.str "Buffer"), ("data", PVal.str "aGk=")] "marker" = none ∧
    decodeArg (.obj [("marker", .str "Buffer"), ("data", .str "aGk=")]) =
      .ok (.obj [("marker", .str "Buffer"), ("data", .str "aGk=")]) :=
  ⟨rfl, rfl, rfl⟩

/-- C4 (amended): the accept loop of `IPCServer.start` handles each
accepted connection synchronously: `_handle_client` must return before the
next accept, so a session that blocks forever starves every connection
behind it. -/
theorem c4_sequential_accept_loop (h : PVal → List PVal → Except String PVal)
    (c : Conn) (rest : List Conn) (hc : sessionRun h c = none) :
    serverRun h (c :: rest) = none := by
  simp [serverRun, hc]

/-- C4 (witness): a lone stalled connection (no data, never closes) already
keeps the accept loop from ever returning. -/
theorem c4_sequential_accept_witness :
    serverRun echoHandler [⟨[], false⟩] = none :=
  c4_sequential_accept_loop echoHandler ⟨[], false⟩ [] rfl

/-- C4 (counterexample): with connection A stalled mid-read (no data, peer
never closes) and connection B a complete echo exchange, the server
produces no reply at all for B, although B on its own completes — the
sessions are NOT independent units of concurrency. -/
theorem c4_concurrent_sessions_counterexample :
    serverRun echoHandler [⟨[], false⟩, ⟨[typeRequestLine ++ "\n"], true⟩] = none ∧
    sessionRun echoHandler ⟨[typeRequestLine ++ "\n"], true⟩ = some [echoResponseLine] :=
  ⟨rfl, rfl⟩

/-- C5: a request naming a method absent from the registry draws an error
reply whose text contains the missing method name, both at the dispatch
level (`baseHandler` raises the `AttributeError` text, `_process_message`
converts it) and at the session level, where the connection stays open:
the buffer after the missing-method line is processed exactly as it would
be on a fresh connection. -/
theorem c5_missing_method_error :
    (∀ (methods : List (String × (List PVal → Except String PVal))) (modName name : String)
       (args : List PVal), methods.lookup name = none →
      baseHandler methods modName (.str name) args =
        .error ("Método '" ++ name ++ "' no encontrado en " ++ modName)) ∧
    (∀ (methods : List (String × (List PVal → Except String PVal))) (modName name : String)
       (i : PVal), name ≠ "" → methods.lookup name = none →
      processMessage (baseHandler methods modName)
          (mkMessage i (.str "request") (.str name) .null .null .null) =
        mkErr i ("Método '" ++ name ++ "' no encontrado en " ++ modName) ∧
      ∃ pre post, ("Método '" ++ name ++ "' no encontrado en " ++ modName) =
        pre ++ (name ++ post)) ∧
    (∀ rest : List Char,
      drain echoHandler (noopRequestLine.data ++ '\n' :: rest) =
        (noopReplyLine :: (drain echoHandler rest).1, (drain echoHandler rest).2)) := by
  refine ⟨?_, ?_, ?_⟩
  · intro methods modName name args hlk
    simp [baseHandler, hlk]
  · intro methods modName name i hne hlk
    constructor
    · simp [processMessage, mkMessage, isStrVal, truthy, hne, decodeArgs, pyIter,
            baseHandler, hlk, mkErr]
      rfl
    · exact ⟨"Método '", "' no encontrado en " ++ modName,
        by rw [String.append_assoc, String.append_assoc]⟩
  · intro rest
    rw [drain_line echoHandler noopRequestLine.data rest (by decide),
        show String.mk noopRequestLine.data = noopRequestLine from rfl,
        show lineOut echoHandler noopRequestLine = [noopReplyLine] from rfl]
    rfl

/-- C5 (witness): `noop` is absent from the `echo` registry; the dispatch
error text carries the name, and the session keeps going after replying. -/
theorem c5_missing_method_witness :
    baseHandler echoMethods "worker" (.str "noop") [] =
      .error "Método 'noop' no encontrado en worker" ∧
    drain echoHandler (noopRequestLine.data ++ '\n' :: []) =
      (noopReplyLine :: (drain echoHandler []).1, (drain echoHandler []).2) :=
  ⟨c5_missing_method_error.1 echoMethods "worker" "noop" [] rfl,
   c5_missing_method_error.2.2 []⟩

/-- C6: a failure raised by the handler body is caught at the dispatch
boundary of `_process_message` and converted into an error reply carrying
the failure text (`_process_message` is total: the exception never
escapes); the session continues past the failing request, and the accept
loop serves further connections exactly as if the failing one had
succeeded. -/
theorem c6_handler_failure_contained :
    (∀ (h : PVal → List PVal → Except String PVal) (m : IPCMessage) (e : String)
       (as : List PVal),
      isStrVal m.type "request" = true → truthy m.method = true →
      decodeArgs m.args = .ok as → h m.method as = .error e →
      processMessage h m = mkErr m.id e) ∧
    (∀ rest : List Char,
      drain boomHandler (boomRequestLine.data ++ '\n' :: rest) =
        (boomReplyLine :: (drain boomHandler rest).1, (drain boomHandler rest).2)) ∧
    (∀ conns : List Conn,
      serverRun boomHandler (⟨[boomRequestLine ++ "\n"], true⟩ :: conns) =
        (serverRun boomHandler conns).map (fun l => [boomReplyLine] :: l)) := by
  refine ⟨?_, ?_, ?_⟩
  · intro h m e as h1 h2 h3 h4
    simp [processMessage, h1, h2, h3, h4]
  · intro rest
    rw [drain_line boomHandler boomRequestLine.data rest (by decide),
        show String.mk boomRequestLine.data = boomRequestLine from rfl,
        show lineOut boomHandler boomRequestLine = [boomReplyLine] from rfl]
    rfl
  · intro conns
    have hs : sessionRun boomHandler ⟨[boomRequestLine ++ "\n"], true⟩ =
        some [boomReplyLine] := rfl
    simp [serverRun, hs]

/-- C6 (witness): the raising `boom` method draws the `kaput` error reply,
and a connection that triggered it leaves the accept loop able to serve
any further connections. -/
theorem c6_handler_failure_witness :
    processMessage boomHandler
        (mkMessage (.str "7") (.str "request") (.str "boom") .null .null .null) =
      mkErr (.str "7") "kaput" ∧
    serverRun boomHandler [⟨[boomRequestLine ++ "\n"], true⟩] =
      (serverRun boomHandler []).map (fun l => [boomReplyLine] :: l) :=
  ⟨c6_handler_failure_contained.1 boomHandler _ "kaput" [] rfl rfl rfl rfl,
   c6_handler_failure_contained.2.2 []⟩

/-- C7: for every byte sequence B (bytes below 256), wrapping B into the
tagged-buffer representation used by `_process_message` and then
unwrapping it through the args-deserialization path yields exactly B,
including for the empty sequence. -/
theorem c7_buffer_roundtrip (B : List Nat) (hB : ∀ b ∈ B, b < 256) :
    decodeArg (wrapResult (.bytes B)) = .ok (.bytes B) := by
  show (b64decodePy (b64encodeStr B)).map PVal.bytes = .ok (.bytes B)
  rw [b64_roundtrip B hB]
  rfl

/-- C7 (witness): the round trip at the empty sequence and at the spec's
three-byte example `0x00 0x01 0xFF`. -/
theorem c7_buffer_roundtrip_witness :
    decodeArg (wrapResult (.bytes [])) = .ok (.bytes []) ∧
    decodeArg (wrapResult (.bytes [0, 1, 255])) = .ok (.bytes [0, 1, 255]) :=
  ⟨c7_buffer_roundtrip [] (by decide), c7_buffer_roundtrip [0, 1, 255] (by decide)⟩

/-- C8: `from_dict (to_dict M) = M` for every message built by the
`IPCMessage` constructor, in particular for the three wire kinds
`request`, `response` and `error`. -/
theorem c8_message_roundtrip (i t me a r e : PVal)
    (ht : t = .str "request" ∨ t = .str "response" ∨ t = .str "error") :
    IPCMessage.from_dict (IPCMessage.to_dict (mkMessage i t me a r e)) =
      some (mkMessage i t me a r e) := by
  clear ht
  by_cases ha : truthy a
  · simp [IPCMessage.to_dict, IPCMessage.from_dict, lookupLast, mkMessage, ha]
  · simp [IPCMessage.to_dict, IPCMessage.from_dict, lookupLast, mkMessage, ha]

/-- C8 (witness): the round trip at the scenario's request message. -/
theorem c8_message_roundtrip_witness :
    IPCMessage.from_dict (IPCMessage.to_dict
        (mkMessage (.str "1") (.str "request") (.str "echo") (.arr [.str "hi"]) .null .null)) =
      some (mkMessage (.str "1") (.str "request") (.str "echo") (.arr [.str "hi"]) .null .null) :=
  c8_message_roundtrip (.str "1") (.str "request") (.str "echo") (.arr [.str "hi"]) .null .null
    (Or.inl rfl)

/-- C9: endpoint resolution (POSIX branch) is a deterministic function of
the module identity, every path-separator character of the name component
is replaced, and the resolved address ends in the concatenation of the
sanitized name, the version and the language, under the temporary-directory
namespace. -/
theorem c9_endpoint_resolution (name version language tmpdir : String) :
    getPipePath false tmpdir name version language =
      getPipePath false tmpdir name version language ∧
    (∀ c ∈ (sanitizeName name).data, c ≠ '/' ∧ c ≠ '\\') ∧
    ∃ pre, getPipePath false tmpdir name version language =
      pre ++ (sanitizeName name ++ "-" ++ version ++ "-" ++ language) := by
  refine ⟨rfl, ?_, ?_⟩
  · intro c hc
    simp only [sanitizeName, replaceChar, List.map_map, List.mem_map] at hc
    obtain ⟨x, hx, hcx⟩ := hc
    subst hcx
    simp only [Function.comp]
    split_ifs with h1 h2 <;> simp_all
  · obtain ⟨pre, hpre⟩ :=
      joinPath_suffix (joinPath tmpdir "adc-platform")
        (sanitizeName name ++ "-" ++ version ++ "-" ++ language)
    exact ⟨pre, hpre⟩

/-- C10: for every decoded inbound message and every handler, the reply of
`_process_message` carries exactly the inbound `id`, and its kind is
`response` or `error`, never `request`. -/
theorem c10_reply_correlation (h : PVal → List PVal → Except String PVal) (m : IPCMessage) :
    (processMessage h m).id = m.id ∧
    ((processMessage h m).type = .str "response" ∨ (processMessage h m).type = .str "error") ∧
    (processMessage h m).type ≠ .str "request" := by
  refine ⟨?_, ?_, ?_⟩ <;> unfold processMessage <;> (repeat' split) <;>
    simp [mkErr, mkMessage]
